import Mathlib

/-!
Verification of the image acquisition pipeline of the agri_risks repository
(src/crawler/ImageCrawler.py, src/crawler/yandex_crawler.py,
src/crawler/convert_webp_to_jpg.py), shallowly embedded in Lean.

Strings are Lean strings; the filesystem fragment relevant to the crawler is
an association list from paths to byte contents; HTTP traffic is passed in
explicitly as oracle arguments (a response value per request, with none
standing for a raised-and-caught network exception).
-/

set_option maxRecDepth 100000

namespace AgriRisks

/-! ## Python string primitives, restricted to the Latin and Cyrillic alphabet
actually used by the repository. -/

/-- Lowercasing on code points, as Python str.lower acts on the ASCII range
A-Z and the Cyrillic ranges А-Я and Ё used in the CSV data. -/
def lowerCharNat (n : Nat) : Nat :=
  if 65 ≤ n ∧ n ≤ 90 then n + 32
  else if 1040 ≤ n ∧ n ≤ 1071 then n + 32
  else if n = 1025 then 1105
  else n

/-- Lowercasing of a single character. -/
def lowerChar (c : Char) : Char := Char.ofNat (lowerCharNat c.toNat)

/-- Python str.lower. -/
def pyLower (s : String) : String := String.mk (s.data.map lowerChar)

/-- Python str.startswith. -/
def pyStartswith (s p : String) : Bool := p.data.isPrefixOf s.data

/-- Python str.endswith. -/
def pyEndswith (s p : String) : Bool := p.data.isSuffixOf s.data

/-- Containment of a substring in a list of characters. -/
def containsSub (needle : List Char) : List Char → Bool
  | [] => needle.isPrefixOf []
  | c :: rest => needle.isPrefixOf (c :: rest) || containsSub needle rest

/-- Python substring membership, the expression sub in s. -/
def pyContains (s sub : String) : Bool := containsSub sub.data s.data

/-- Python str.strip on both ends. -/
def pyStrip (s : String) : String :=
  String.mk (((s.data.dropWhile Char.isWhitespace).reverse.dropWhile Char.isWhitespace).reverse)

/-- Python str.replace of spaces by underscores. -/
def pyReplaceSpace (s : String) : String :=
  String.mk (s.data.map (fun c => if c = ' ' then '_' else c))

/-- Everything strictly before the last dot of a character list, when the list
has a dot. -/
def beforeLastDot : List Char → Option (List Char)
  | [] => none
  | c :: cs =>
    match beforeLastDot cs with
    | some r => some (c :: r)
    | none => if c = '.' then some [] else none

/-- Python str(p).rsplit with a dot and maxsplit one, first component
(ImageCrawler.py line 525). -/
def rsplitDot (s : String) : String := String.mk ((beforeLastDot s.data).getD s.data)

/-- Extension component of os.path.splitext: the suffix starting at the last
dot of the last slash-separated component, empty when that component has no
dot or only leading dots before it. -/
def splitextExt (s : String) : String :=
  let base := (s.data.reverse.takeWhile (fun c => c ≠ '/')).reverse
  let revBase := base.reverse
  let revExt := revBase.takeWhile (fun c => c ≠ '.')
  if revExt.length = revBase.length then ""
  else if (revBase.drop (revExt.length + 1)).all (fun c => c = '.') then ""
  else String.mk ('.' :: revExt.reverse)

/-! ## Decimal rendering, for the 02d-formatted sequence number -/

/-- Decimal digit character. -/
def digitChar (n : Nat) : Char :=
  match n with
  | 0 => '0' | 1 => '1' | 2 => '2' | 3 => '3' | 4 => '4'
  | 5 => '5' | 6 => '6' | 7 => '7' | 8 => '8' | 9 => '9'
  | _ => '*'

/-- Decimal digits of a number, most significant first, with explicit fuel so
that the definition is structurally recursive. -/
def natDigitsAux : Nat → Nat → List Char
  | 0, _ => []
  | fuel + 1, n =>
    if n < 10 then [digitChar n]
    else natDigitsAux fuel (n / 10) ++ [digitChar (n % 10)]

/-- Decimal digits of a number, most significant first. -/
def natDigits (n : Nat) : List Char := natDigitsAux (n + 1) n

/-- Python f-string formatting of a number with the 02d spec
(ImageCrawler.py line 682). -/
def pad2 (n : Nat) : String :=
  if n < 10 then String.mk ('0' :: natDigits n) else String.mk (natDigits n)

/-- Value of a decimal digit string, used to invert the rendering. -/
def digitsVal (l : List Char) : Nat := l.foldl (fun a c => 10 * a + (c.toNat - 48)) 0

/-! ## SHA-1 and uuid5, the identity hash used at ImageCrawler.py line 674
and convert_webp_to_jpg.py line 96 (uuid.uuid5 with uuid.NAMESPACE_DNS). -/

/-- Truncation to a 32-bit word. -/
def w32 (n : Nat) : Nat := n % 4294967296

/-- Rotate a 32-bit word left by s bits. -/
def rotl (s n : Nat) : Nat := (n * 2 ^ s) % 4294967296 + n / 2 ^ (32 - s)

/-- Round function of SHA-1. -/
def sha1F (t b c d : Nat) : Nat :=
  if t < 20 then Nat.lor (Nat.land b c) (Nat.land (Nat.xor b 4294967295) d)
  else if t < 40 then Nat.xor (Nat.xor b c) d
  else if t < 60 then Nat.lor (Nat.lor (Nat.land b c) (Nat.land b d)) (Nat.land c d)
  else Nat.xor (Nat.xor b c) d

/-- Round constants of SHA-1. -/
def sha1K (t : Nat) : Nat :=
  if t < 20 then 0x5A827999
  else if t < 40 then 0x6ED9EBA1
  else if t < 60 then 0x8F1BBCDC
  else 0xCA62C1D6

/-- Big-endian eight-byte encoding of a number. -/
def beBytes8 (n : Nat) : List Nat :=
  [n / 2 ^ 56 % 256, n / 2 ^ 48 % 256, n / 2 ^ 40 % 256, n / 2 ^ 32 % 256,
   n / 2 ^ 24 % 256, n / 2 ^ 16 % 256, n / 2 ^ 8 % 256, n % 256]

/-- SHA-1 message padding to a multiple of 64 bytes. -/
def sha1Pad (msg : List Nat) : List Nat :=
  msg ++ 128 :: List.replicate ((119 - msg.length % 64) % 64) 0 ++ beBytes8 (8 * msg.length)

/-- Split a padded message into 64-byte blocks. -/
def sha1Blocks (l : List Nat) : List (List Nat) :=
  (List.range (l.length / 64)).map (fun i => ((l.drop (64 * i)).take 64))

/-- The sixteen 32-bit words of one block. -/
def blockWords (b : List Nat) : List Nat :=
  (List.range 16).map (fun j =>
    b.getD (4 * j) 0 * 2 ^ 24 + b.getD (4 * j + 1) 0 * 2 ^ 16 +
    b.getD (4 * j + 2) 0 * 2 ^ 8 + b.getD (4 * j + 3) 0)

/-- Message schedule: extend sixteen words to eighty. -/
def sha1Schedule (ws : List Nat) : List Nat :=
  (List.range 64).foldl
    (fun acc _ =>
      acc ++ [rotl 1 (Nat.xor (Nat.xor (acc.getD (acc.length - 3) 0) (acc.getD (acc.length - 8) 0))
        (Nat.xor (acc.getD (acc.length - 14) 0) (acc.getD (acc.length - 16) 0)))])
    ws

/-- One SHA-1 round on the five-word state. -/
def sha1Round (st : Nat × Nat × Nat × Nat × Nat) (t w : Nat) : Nat × Nat × Nat × Nat × Nat :=
  (w32 (rotl 5 st.1 + sha1F t st.2.1 st.2.2.1 st.2.2.2.1 + st.2.2.2.2 + sha1K t + w),
   st.1, rotl 30 st.2.1, st.2.2.1, st.2.2.2.1)

/-- Compression of one 64-byte block into the running hash state. -/
def sha1Compress (h : List Nat) (block : List Nat) : List Nat :=
  let ws := sha1Schedule (blockWords block)
  let fin := (List.range 80).foldl (fun st t => sha1Round st t (ws.getD t 0))
    (h.getD 0 0, h.getD 1 0, h.getD 2 0, h.getD 3 0, h.getD 4 0)
  [w32 (h.getD 0 0 + fin.1), w32 (h.getD 1 0 + fin.2.1), w32 (h.getD 2 0 + fin.2.2.1),
   w32 (h.getD 3 0 + fin.2.2.2.1), w32 (h.getD 4 0 + fin.2.2.2.2)]

/-- SHA-1 digest (twenty bytes) of a byte sequence. -/
def sha1 (msg : List Nat) : List Nat :=
  ((sha1Blocks (sha1Pad msg)).foldl sha1Compress
    [0x67452301, 0xEFCDAB89, 0x98BADCFE, 0x10325476, 0xC3D2E1F0]).flatMap
    (fun h => [h / 2 ^ 24 % 256, h / 2 ^ 16 % 256, h / 2 ^ 8 % 256, h % 256])

/-- UTF-8 encoding of one character. -/
def utf8Char (c : Char) : List Nat :=
  let n := c.toNat
  if n < 128 then [n]
  else if n < 2048 then [192 + n / 64, 128 + n % 64]
  else if n < 65536 then [224 + n / 4096, 128 + n / 64 % 64, 128 + n % 64]
  else [240 + n / 262144, 128 + n / 4096 % 64, 128 + n / 64 % 64, 128 + n % 64]

/-- UTF-8 encoding of a string. -/
def utf8Bytes (s : String) : List Nat := s.data.flatMap utf8Char

/-- The sixteen bytes of uuid.NAMESPACE_DNS. -/
def NAMESPACE_DNS : List Nat :=
  [0x6b, 0xa7, 0xb8, 0x10, 0x9d, 0xad, 0x11, 0xd1, 0x80, 0xb4, 0x00, 0xc0, 0x4f, 0xd4, 0x30, 0xc8]

/-- Lower-case hexadecimal digit. -/
def hexDigit (n : Nat) : Char :=
  match n with
  | 0 => '0' | 1 => '1' | 2 => '2' | 3 => '3' | 4 => '4'
  | 5 => '5' | 6 => '6' | 7 => '7' | 8 => '8' | 9 => '9'
  | 10 => 'a' | 11 => 'b' | 12 => 'c' | 13 => 'd' | 14 => 'e'
  | _ => 'f'

/-- Two hexadecimal digits of one byte. -/
def byteHex (b : Nat) : List Char := [hexDigit (b / 16), hexDigit (b % 16)]

/-- Canonical 8-4-4-4-12 text form of sixteen UUID bytes. -/
def uuidFormat (bytes : List Nat) : String :=
  String.mk ((bytes.take 4).flatMap byteHex ++ '-' ::
    (((bytes.drop 4).take 2).flatMap byteHex ++ '-' ::
      (((bytes.drop 6).take 2).flatMap byteHex ++ '-' ::
        (((bytes.drop 8).take 2).flatMap byteHex ++ '-' :: (bytes.drop 10).flatMap byteHex))))

/-- Python uuid.uuid5 with the DNS namespace: SHA-1 of namespace bytes plus
the UTF-8 name, truncated to sixteen bytes with version and variant bits set. -/
def uuid5dns (name : String) : String :=
  let d := sha1 (NAMESPACE_DNS ++ utf8Bytes name)
  let b := d.take 16
  uuidFormat (b.take 6 ++ (b.getD 6 0 % 16 + 80) :: b.getD 7 0 :: (b.getD 8 0 % 64 + 128) :: b.drop 9)

/-- Validation of the uuid5 embedding against the value documented for the
Python standard library, uuid5 of python.org in the DNS namespace. -/
theorem uuid5dns_python_org :
    uuid5dns "python.org" = "886313e1-3b8a-5372-9b90-0c9aee199e5d" := by
  decide

/-! ## Identity derivation and query building (ImageCrawler.py) -/

/-- Deterministic GUID of one risk (ImageCrawler.py lines 671-674): uuid5 in
the DNS namespace over the lowercased underscore-joined seed string built from
risk type, English culture name and English risk name. -/
def guid_for (risk_type culture_en risk_name_en : String) : String :=
  uuid5dns (pyLower (risk_type ++ "_" ++ culture_en ++ "_" ++ risk_name_en))

/-- Embedding of create_search_query (ImageCrawler.py lines 128 and 416-435):
one query string, chosen by the lowercased engine name and the risk type. -/
def create_search_query (risk_name culture risk_type search_engine : String) : String :=
  if pyLower search_engine = "yandex" then
    if risk_type = "diseases" then risk_name ++ " болезнь " ++ culture ++ " фото высокое качество"
    else risk_name ++ " вредитель " ++ culture ++ " фото макро"
  else
    if risk_type = "diseases" then risk_name ++ " болезнь " ++ culture ++ " фото"
    else risk_name ++ " вредитель " ++ culture ++ " фото"

/-- Queries built per risk record by the orchestrator: process_risk_item
issues exactly one create_search_query call per record (line 603). -/
def queries_built (risk_name culture risk_type search_engine : String) : List String :=
  [create_search_query risk_name culture risk_type search_engine]

/-! ## Filesystem model and the Fetcher, download_image -/

/-- Filesystem fragment seen by the crawler: an association list from paths
to byte contents, most recent write first. -/
abbrev Fs := List (String × List Nat)

/-- Record a write at a path. -/
def fsWrite (fs : Fs) (p : String) (content : List Nat) : Fs := (p, content) :: fs

/-- Existence check for a path. -/
def fsExists (fs : Fs) (p : String) : Bool := fs.any (fun e => e.fst == p)

/-- Content of the file at a path, if any. -/
def fsRead (fs : Fs) (p : String) : Option (List Nat) :=
  (fs.find? (fun e => e.fst == p)).map (fun e => e.snd)

/-- An HTTP response: status code, declared Content-Type header and payload. -/
structure HttpResponse where
  status : Nat
  contentType : String
  body : List Nat

/-- Extension inferred from the declared content type
(ImageCrawler.py lines 512-521). -/
def extFromContentType (ct : String) : String :=
  if pyContains (pyLower ct) "image/jpeg" then "jpg"
  else if pyContains (pyLower ct) "image/png" then "png"
  else if pyContains (pyLower ct) "image/webp" then "webp"
  else if pyContains (pyLower ct) "image/gif" then "gif"
  else "jpg"

/-- Destination path after the content-type extension override
(ImageCrawler.py lines 523-525). -/
def resolvePath (save_path ext : String) : String :=
  if pyEndswith (pyLower save_path) ("." ++ ext) then save_path
  else rsplitDot save_path ++ "." ++ ext

/-- Embedding of download_image (ImageCrawler.py lines 490-550). The response
argument stands for the urlopen interaction; none models a raised network
exception, caught and turned into failure. The effect order mirrors the
source: the destination is opened with mode wb, creating an empty file,
before the payload size check runs. -/
def download_image (resp : Option HttpResponse) (save_path : String) (fs : Fs) : Bool × Fs :=
  match resp with
  | none => (false, fs)
  | some r =>
    if r.status = 200 then
      if pyStartswith r.contentType "image/" = false then (false, fs)
      else
        let path := resolvePath save_path (extFromContentType r.contentType)
        let fs1 := fsWrite fs path []
        if r.body.length < 1000 then (false, fs1)
        else (true, fsWrite fs1 path r.body)
    else (false, fs)

/-! ## The Acquisition Orchestrator, process_risk_item -/

/-- Base download directory (ImageCrawler.py line 42), written relative to
the repository root. -/
def DOWNLOAD_DIR : String := "crawler/download/images"

/-- One CSV row as consumed by process_risk_item. -/
structure RiskItem where
  name : Option String
  english_name : Option String
  guid : Option String

/-- One outbound network interaction of the orchestrator. -/
inductive NetCall where
  | search (query : String)
  | fetch (index : Nat)
deriving DecidableEq

/-- Word-or-whitespace test of the transliteration regex at line 578,
restricted to the Latin, digit and Cyrillic alphabet of the data. -/
def isWordOrSpace (c : Char) : Bool :=
  c.isAlphanum || c = '_' || c = ' ' ||
    (1040 ≤ c.toNat && c.toNat ≤ 1103) || c.toNat = 1025 || c.toNat = 1105

/-- Fallback English name built from the Russian name (lines 574-580): drop
characters that are neither word nor whitespace, replace spaces with
underscores, lowercase. -/
def transliterate (s : String) : String :=
  pyLower (pyReplaceSpace (String.mk (s.data.filter isWordOrSpace)))

/-- English risk name used for the directory and the GUID seed
(lines 566-580). -/
def risk_name_en_of (item : RiskItem) : String :=
  let en0 := pyStrip (item.english_name.getD "")
  if en0 = "" then transliterate (pyStrip (item.name.getD "")) else en0

/-- Directory for one risk (line 585). -/
def risk_dir (culture_en risk_type risk_name_en : String) : String :=
  DOWNLOAD_DIR ++ "/" ++ risk_type ++ "/" ++ culture_en ++ "/"
    ++ pyLower (pyReplaceSpace risk_name_en)

/-- Is a path directly inside a directory: it extends the directory by a
slash and one slash-free component, matching what Path.glob of star lists. -/
def inDir (d p : String) : Bool :=
  pyStartswith p (d ++ "/") && ((p.data.drop (d.data.length + 1)).contains '/' == false)

/-- Count of entries in a directory (line 594). -/
def countInDir (fs : Fs) (d : String) : Nat := (fs.filter (fun e => inDir d e.fst)).length

/-- Extension taken from the URL (lines 678-680). -/
def fileExtFor (url : String) : String :=
  let e := splitextExt url
  if e = "" then ".jpg"
  else if [".jpg", ".jpeg", ".png", ".webp"].contains (pyLower e) then e
  else ".jpg"

/-- Invariant part of the filename pattern of line 682: everything before the
two-digit sequence number. -/
def save_stem (rdir risk_type culture_en g : String) : String :=
  rdir ++ "/" ++ risk_type ++ "_" ++ pyLower culture_en ++ "_" ++ g ++ "_"

/-- Result of the download loop. -/
structure LoopOut where
  count : Nat
  fs : Fs
  calls : List NetCall
deriving DecidableEq

/-- The download loop of process_risk_item (lines 657-697): iterate the
candidate URLs with their indices; stop once existing plus downloaded
reaches the cap; skip a candidate whose save path already exists; otherwise
fetch (one network call, logged) and count a success. -/
def download_loop (stem : String) (existing maxImages : Nat)
    (net : Nat → Option HttpResponse) :
    List String → Nat → Nat → Fs → LoopOut
  | [], _, count, fs => ⟨count, fs, []⟩
  | url :: rest, i, count, fs =>
    if maxImages ≤ existing + count then ⟨count, fs, []⟩
    else
      let sp := stem ++ pad2 (i + existing + 1) ++ fileExtFor url
      if fsExists fs sp then download_loop stem existing maxImages net rest (i + 1) count fs
      else
        let res := download_image (net i) sp fs
        let out := download_loop stem existing maxImages net rest (i + 1)
          (if res.fst then count + 1 else count) res.snd
        ⟨out.count, out.fs, NetCall.fetch i :: out.calls⟩

/-- Embedding of process_risk_item (ImageCrawler.py lines 552-702). The
urlsFor oracle maps a query to the candidate URL list the selected engine
returns for it; every engine branch at lines 606-655 performs at least one
search network call when reached, so one search call is logged per urlsFor
use. The net oracle gives the response for the candidate at each index.
Returns the filesystem and the chronological network-call log. -/
def process_risk_item (item : RiskItem) (culture_ru culture_en risk_type engine : String)
    (maxImages : Nat) (urlsFor : String → List String) (net : Nat → Option HttpResponse)
    (fs : Fs) : Fs × List NetCall :=
  let risk_name_ru := pyStrip (item.name.getD "")
  if risk_name_ru = "" then (fs, [])
  else
    let risk_name_en := risk_name_en_of item
    let rdir := risk_dir culture_en risk_type risk_name_en
    let existing := countInDir fs rdir
    if maxImages ≤ existing then (fs, [])
    else
      let query := create_search_query risk_name_ru culture_ru risk_type engine
      let g := item.guid.getD (guid_for risk_type culture_en risk_name_en)
      let stem := save_stem rdir risk_type culture_en g
      let urls := urlsFor query
      if urls = [] then
        let altQuery := risk_name_ru ++ " " ++ culture_ru ++ " фото"
        let alt := urlsFor altQuery
        if alt = [] then (fs, [NetCall.search query, NetCall.search altQuery])
        else
          let res := download_loop stem existing maxImages net alt 0 0 fs
          (res.fs, NetCall.search query :: NetCall.search altQuery :: res.calls)
      else
        let res := download_loop stem existing maxImages net urls 0 0 fs
        (res.fs, NetCall.search query :: res.calls)

/-! ## Source Adapters: get_google_image_urls and get_yandex_image_urls -/

/-- Extension alternatives of the URL regex, in source order
(ImageCrawler.py line 475, yandex_crawler.py line 62). -/
def extAlts : List (List Char) :=
  [['j', 'p', 'g'], ['j', 'p', 'e', 'g'], ['p', 'n', 'g'], ['w', 'e', 'b', 'p']]

/-- First extension alternative matching at the front of the list, as the
regex alternation tries them left to right. -/
def firstAlt (l : List Char) : Option (List Char) :=
  extAlts.find? (fun a => a.isPrefixOf l)

/-- Rightmost split of a character run at a dot followed by an extension
alternative, mirroring how the greedy one-or-more quantifier backtracks
from the longest prefix: returns the part before the dot, the matched
alternative, and the run remainder after it. -/
def lastDotExt : List Char → Option (List Char × List Char × List Char)
  | [] => none
  | c :: cs =>
    match lastDotExt cs with
    | some (b, e, a) => some (c :: b, e, a)
    | none =>
      if c = '.' then
        match firstAlt cs with
        | some alt => some ([], alt, cs.drop alt.length)
        | none => none
      else none

/-- The characters of the https scheme literal of both URL patterns. -/
def httpsLit : List Char := ['h', 't', 't', 'p', 's', ':', '/', '/']

/-- One attempted match of the Google image URL pattern at the current
position: the https literal, then a nonempty run free of double and single
quotes ending at the rightmost dot-extension cut. Returns the match and the
text after it. -/
def googleMatchHere (l : List Char) : Option (List Char × List Char) :=
  if httpsLit.isPrefixOf l then
    match lastDotExt ((l.drop 8).takeWhile (fun c => c ≠ '"' && c ≠ '\'')) with
    | some (b, e, rem) =>
      if b.length = 0 then none
      else some (httpsLit ++ b ++ '.' :: e,
        rem ++ (l.drop 8).drop
          (((l.drop 8).takeWhile (fun c => c ≠ '"' && c ≠ '\'')).length))
    | none => none
  else none

/-- re.findall scan for the Google pattern: try a match at every position,
non-overlapping, with fuel bounded by the text length (matches are
nonempty, so the fuel never runs out on the text the scan was started on). -/
def googleFindAllAux : Nat → List Char → List (List Char)
  | 0, _ => []
  | fuel + 1, l =>
    match l with
    | [] => []
    | _ :: rest =>
      match googleMatchHere l with
      | some (m, after) => m :: googleFindAllAux fuel after
      | none => googleFindAllAux fuel rest

/-- The append-and-check filter loop of get_google_image_urls
(ImageCrawler.py lines 478-483), shared by the Yandex variant
(yandex_crawler.py lines 67-73). -/
def urlFilterLoop (maxImages : Nat) : List String → List String → List String
  | [], acc => acc
  | url :: rest, acc =>
    if [".jpg", ".jpeg", ".png", ".webp"].any (fun e => pyContains (pyLower url) e) then
      if maxImages ≤ acc.length + 1 then acc ++ [url]
      else urlFilterLoop maxImages rest (acc ++ [url])
    else urlFilterLoop maxImages rest acc

/-- Embedding of get_google_image_urls (ImageCrawler.py lines 437-488): the
argument is the response text, with none standing for a request exception
or a non-success status raised by raise_for_status, caught at line 486. -/
def get_google_image_urls (resp : Option String) (maxImages : Nat) : List String :=
  match resp with
  | none => []
  | some text =>
    urlFilterLoop maxImages ((googleFindAllAux text.data.length text.data).map String.mk) []

/-- The characters of the quoted orig_url JSON key with its colon and the
opening quote of the value. -/
def origUrlLit : List Char :=
  ['"', 'o', 'r', 'i', 'g', '_', 'u', 'r', 'l', '"', ':', '"']

/-- One attempted match of the Yandex orig_url pattern at the current
position: the quoted key literal, then the captured https URL whose
quote-free run must end in a dot and an extension alternative right before
the closing double quote. Returns the captured URL and the text after the
closing quote. -/
def yandexMatchHere (l : List Char) : Option (List Char × List Char) :=
  if origUrlLit.isPrefixOf l then
    if httpsLit.isPrefixOf (l.drop 12) then
      let run := (l.drop 12).takeWhile (fun c => c ≠ '"')
      if ((l.drop 12).drop run.length).head? = some '"' then
        match extAlts.find? (fun a => ('.' :: a).isSuffixOf run) with
        | some alt =>
          if 8 + alt.length + 1 < run.length then
            some (run, (l.drop 12).drop (run.length + 1))
          else none
        | none => none
      else none
    else none
  else none

/-- Backslash removal applied to each found URL (yandex_crawler.py
line 69). -/
def stripBackslash (s : String) : String :=
  String.mk (s.data.filter (fun c => c ≠ '\\'))

/-- re.findall scan for the Yandex pattern. -/
def yandexFindAllAux : Nat → List Char → List (List Char)
  | 0, _ => []
  | fuel + 1, l =>
    match l with
    | [] => []
    | _ :: rest =>
      match yandexMatchHere l with
      | some (m, after) => m :: yandexFindAllAux fuel after
      | none => yandexFindAllAux fuel rest

/-- Embedding of get_yandex_image_urls (yandex_crawler.py lines 24-86). -/
def get_yandex_image_urls (resp : Option String) (maxImages : Nat) : List String :=
  match resp with
  | none => []
  | some text =>
    urlFilterLoop maxImages
      ((yandexFindAllAux text.data.length text.data).map
        (fun m => stripBackslash (String.mk m))) []

/-! ## Basic facts about the string primitives -/

theorem char_toNat_ofNat {n : Nat} (h : n.isValidChar) : (Char.ofNat n).toNat = n := by
  rw [Char.ofNat, dif_pos h]
  rfl

theorem lowerCharNat_idem (n : Nat) : lowerCharNat (lowerCharNat n) = lowerCharNat n := by
  unfold lowerCharNat
  split_ifs <;> omega

theorem lowerCharNat_valid {n : Nat} (h : n.isValidChar) : (lowerCharNat n).isValidChar := by
  unfold lowerCharNat
  rcases h with h | h
  · split_ifs <;> exact Or.inl (by omega)
  · split_ifs <;> first | exact Or.inl (by omega) | exact Or.inr h

theorem char_isValid (c : Char) : c.toNat.isValidChar := c.valid

theorem lowerChar_idem (c : Char) : lowerChar (lowerChar c) = lowerChar c := by
  unfold lowerChar
  rw [char_toNat_ofNat (lowerCharNat_valid (char_isValid c)), lowerCharNat_idem]

theorem pyLower_append (a b : String) : pyLower (a ++ b) = pyLower a ++ pyLower b := by
  apply String.ext
  simp [pyLower, String.data_append]

theorem pyLower_idem (s : String) : pyLower (pyLower s) = pyLower s := by
  apply String.ext
  simp [pyLower, Function.comp, lowerChar_idem]

/-! ## Facts about the decimal rendering -/

theorem digitsVal_append (l : List Char) (c : Char) :
    digitsVal (l ++ [c]) = 10 * digitsVal l + (c.toNat - 48) := by
  unfold digitsVal
  rw [List.foldl_append]
  rfl

theorem digitsVal_cons_zero (l : List Char) : digitsVal ('0' :: l) = digitsVal l := rfl

theorem digitChar_toNat {n : Nat} (h : n < 10) : (digitChar n).toNat - 48 = n := by
  interval_cases n <;> rfl

theorem natDigitsAux_val : ∀ fuel n, n < fuel → digitsVal (natDigitsAux fuel n) = n := by
  intro fuel
  induction fuel with
  | zero => intro n h; omega
  | succ fuel ih =>
    intro n h
    unfold natDigitsAux
    split_ifs with h10
    · show digitsVal [digitChar n] = n
      show 10 * 0 + ((digitChar n).toNat - 48) = n
      rw [digitChar_toNat h10]
      omega
    · have hdiv : n / 10 < n := Nat.div_lt_self (by omega) (by omega)
      rw [digitsVal_append, ih (n / 10) (by omega), digitChar_toNat (Nat.mod_lt n (by omega))]
      omega

theorem natDigits_val (n : Nat) : digitsVal (natDigits n) = n :=
  natDigitsAux_val (n + 1) n (by omega)

theorem pad2_val (n : Nat) : digitsVal (pad2 n).data = n := by
  unfold pad2
  split_ifs with h
  · show digitsVal ('0' :: natDigits n) = n
    rw [digitsVal_cons_zero, natDigits_val]
  · exact natDigits_val n

theorem pad2_inj {m n : Nat} (h : (pad2 m).data = (pad2 n).data) : m = n := by
  have hv := pad2_val m
  rw [h, pad2_val] at hv
  omega

theorem digitChar_ne_dot (n : Nat) : digitChar n ≠ '.' := by
  unfold digitChar
  split <;> decide

theorem natDigitsAux_no_dot : ∀ fuel n c, c ∈ natDigitsAux fuel n → c ≠ '.' := by
  intro fuel
  induction fuel with
  | zero => intro n c h; simp [natDigitsAux] at h
  | succ fuel ih =>
    intro n c h
    unfold natDigitsAux at h
    split_ifs at h with h10
    · rw [List.mem_singleton] at h
      subst h
      exact digitChar_ne_dot n
    · rw [List.mem_append, List.mem_singleton] at h
      rcases h with h | h
      · exact ih _ _ h
      · subst h
        exact digitChar_ne_dot _

theorem pad2_no_dot (n : Nat) : ∀ c ∈ (pad2 n).data, c ≠ '.' := by
  intro c hc
  unfold pad2 at hc
  split_ifs at hc with h
  · rcases List.mem_cons.mp hc with rfl | hc2
    · decide
    · exact natDigitsAux_no_dot _ _ _ hc2
  · exact natDigitsAux_no_dot _ _ _ hc

/-! ## Dot-splitting facts used for save-path disjointness -/

theorem nodot_dot_append_cancel :
    ∀ {a : List Char} {b x y : List Char}, (∀ c ∈ a, c ≠ '.') → (∀ c ∈ b, c ≠ '.') →
      x.head? = some '.' → y.head? = some '.' → a ++ x = b ++ y → a = b ∧ x = y := by
  intro a
  induction a with
  | nil =>
    intro b x y _ hb hx hy h
    cases b with
    | nil => exact ⟨rfl, h⟩
    | cons d bs =>
      exfalso
      rw [List.nil_append, List.cons_append] at h
      rw [h] at hx
      simp at hx
      exact hb d (List.mem_cons_self d bs) hx
  | cons c as ih =>
    intro b x y ha hb hx hy h
    cases b with
    | nil =>
      exfalso
      rw [List.nil_append, List.cons_append] at h
      rw [← h] at hy
      simp at hy
      exact ha c (List.mem_cons_self c as) hy
    | cons d bs =>
      rw [List.cons_append, List.cons_append] at h
      injection h with h1 h2
      subst h1
      obtain ⟨hab, hxy⟩ := ih (fun e he => ha e (List.mem_cons_of_mem c he))
        (fun e he => hb e (List.mem_cons_of_mem c he)) hx hy h2
      exact ⟨by rw [hab], hxy⟩

theorem beforeLastDot_none {l : List Char} (h : ∀ c ∈ l, c ≠ '.') : beforeLastDot l = none := by
  induction l with
  | nil => rfl
  | cons c cs ih =>
    unfold beforeLastDot
    rw [ih (fun x hx => h x (List.mem_cons_of_mem c hx))]
    simp [h c (List.mem_cons_self c cs)]

theorem beforeLastDot_append {A T : List Char} (hT : ∀ c ∈ T, c ≠ '.') :
    beforeLastDot (A ++ '.' :: T) = some A := by
  induction A with
  | nil =>
    show beforeLastDot ('.' :: T) = some []
    unfold beforeLastDot
    rw [beforeLastDot_none hT]
    simp
  | cons c cs ih =>
    show beforeLastDot (c :: (cs ++ '.' :: T)) = some (c :: cs)
    unfold beforeLastDot
    rw [ih]

theorem pyEndswith_append (a b : String) : pyEndswith (a ++ b) b = true := by
  simp [pyEndswith, List.isSuffixOf_iff_suffix, String.data_append]

theorem extFromContentType_cases (ct : String) :
    extFromContentType ct = "jpg" ∨ extFromContentType ct = "png" ∨
      extFromContentType ct = "webp" ∨ extFromContentType ct = "gif" := by
  unfold extFromContentType
  split_ifs <;> simp

theorem pyLower_extFromContentType (ct : String) :
    pyLower (extFromContentType ct) = extFromContentType ct := by
  rcases extFromContentType_cases ct with h | h | h | h <;> rw [h] <;> decide

/-- The path written by download_image always ends with the extension that
the content type dictates. -/
theorem resolvePath_endswith (sp ext : String) (hl : pyLower ext = ext) :
    pyEndswith (pyLower (resolvePath sp ext)) ("." ++ ext) = true := by
  unfold resolvePath
  split_ifs with h
  · exact h
  · have hassoc : rsplitDot sp ++ "." ++ ext = rsplitDot sp ++ ("." ++ ext) := by
      apply String.ext
      simp [String.data_append]
    have hdot : pyLower "." = "." := by decide
    rw [hassoc, pyLower_append, pyLower_append, hdot, hl]
    exact pyEndswith_append _ _

/-! ## Claim C4: undersized rejection -/

/-- Claim C4, counterexample. A 500-byte image/jpeg payload makes the call
return failure, but the destination file exists afterwards with empty
content: the open with mode wb at ImageCrawler.py line 528 precedes the
payload size check at line 530. -/
theorem undersized_rejection_counterexample :
    (download_image (some ⟨200, "image/jpeg", List.replicate 500 1⟩) "dir/x.jpg" []).fst = false ∧
    fsExists (download_image (some ⟨200, "image/jpeg", List.replicate 500 1⟩) "dir/x.jpg" []).snd
      "dir/x.jpg" = true ∧
    fsRead (download_image (some ⟨200, "image/jpeg", List.replicate 500 1⟩) "dir/x.jpg" []).snd
      "dir/x.jpg" = some [] := by
  exact ⟨by decide, by decide, by decide⟩

/-- Claim C4, amended. A response with an image content type and a payload
under 1000 bytes makes download_image return failure, but because the open
with mode wb precedes the size check, a zero-byte file is left at the
resolved destination rather than no file at all. -/
theorem undersized_rejection_amended (r : HttpResponse) (sp : String) (fs : Fs)
    (h200 : r.status = 200) (himg : pyStartswith r.contentType "image/" = true)
    (hsmall : r.body.length < 1000) :
    download_image (some r) sp fs
      = (false, fsWrite fs (resolvePath sp (extFromContentType r.contentType)) []) := by
  simp [download_image, h200, himg, hsmall]

/-- Witness for the amended claim C4 at a concrete undersized response; the
resolved destination also shows the png-to-jpg extension override. -/
theorem undersized_rejection_amended_witness :
    download_image (some ⟨200, "image/jpeg", List.replicate 999 7⟩) "a/b.png" []
      = (false, [("a/b.jpg", [])]) := by
  rw [undersized_rejection_amended ⟨200, "image/jpeg", List.replicate 999 7⟩ "a/b.png" []
    rfl (by decide) (by decide)]
  decide

/-! ## Claim C5: no overwrite at the Fetcher -/

/-- Claim C5, counterexample. With a file already present at the resolved
destination path, download_image does not treat it as already downloaded: it
re-fetches, returns success and replaces the content. The existence skip
lives in process_risk_item (line 685), not in download_image. -/
theorem no_overwrite_counterexample :
    (download_image (some ⟨200, "image/jpeg", List.replicate 1000 5⟩) "d/x.jpg"
        [("d/x.jpg", [1, 2, 3])]).fst = true ∧
    fsRead (download_image (some ⟨200, "image/jpeg", List.replicate 1000 5⟩) "d/x.jpg"
        [("d/x.jpg", [1, 2, 3])]).snd "d/x.jpg" = some (List.replicate 1000 5) := by
  exact ⟨by decide, by decide⟩

/-! ## Claim C6: content-type gate -/

/-- Claim C6. A response whose declared content type does not start with
image/ makes the call fail with the filesystem unchanged, regardless of
payload size; and on an image content type with a large enough payload the
written path carries the extension inferred from the content type,
overriding the extension of the requested destination path. -/
theorem content_type_gate (r : HttpResponse) (sp : String) (fs : Fs) :
    (r.status = 200 → pyStartswith r.contentType "image/" = false →
      download_image (some r) sp fs = (false, fs)) ∧
    (r.status = 200 → pyStartswith r.contentType "image/" = true → 1000 ≤ r.body.length →
      download_image (some r) sp fs
          = (true, fsWrite (fsWrite fs (resolvePath sp (extFromContentType r.contentType)) [])
              (resolvePath sp (extFromContentType r.contentType)) r.body) ∧
        pyEndswith (pyLower (resolvePath sp (extFromContentType r.contentType)))
          ("." ++ extFromContentType r.contentType) = true) := by
  constructor
  · intro h200 hng
    simp [download_image, h200, hng]
  · intro h200 himg hlen
    have hbig : ¬ r.body.length < 1000 := by omega
    refine ⟨by simp [download_image, h200, himg, hbig], ?_⟩
    exact resolvePath_endswith sp _ (pyLower_extFromContentType r.contentType)

/-- Witness for claim C6: a text/html response of 5000 bytes fails and
creates nothing; an image/png response of 1200 bytes succeeds. -/
theorem content_type_gate_witness :
    download_image (some ⟨200, "text/html", List.replicate 5000 1⟩) "a/x.jpg" [] = (false, []) ∧
    (download_image (some ⟨200, "image/png", List.replicate 1200 3⟩) "a/x.jpg" []).fst = true := by
  constructor
  · exact (content_type_gate ⟨200, "text/html", List.replicate 5000 1⟩ "a/x.jpg" []).1 rfl
      (by decide)
  · rw [((content_type_gate ⟨200, "image/png", List.replicate 1200 3⟩ "a/x.jpg" []).2 rfl
      (by decide) (by decide)).1]

/-! ## Save-path structure and freshness facts for the download loop -/

theorem string_mk_data (l : List Char) : (String.mk l).data = l := rfl

theorem splitextExt_shape (s : String) :
    splitextExt s = "" ∨ ∃ t, (splitextExt s).data = '.' :: t ∧ ∀ c ∈ t, c ≠ '.' := by
  simp only [splitextExt]
  split_ifs with h1 h2
  · exact Or.inl rfl
  · exact Or.inl rfl
  · right
    refine ⟨_, rfl, ?_⟩
    intro c hc
    rw [List.mem_reverse] at hc
    have := List.mem_takeWhile_imp hc
    simpa using this

theorem fileExtFor_shape (url : String) :
    ∃ t, (fileExtFor url).data = '.' :: t ∧ ∀ c ∈ t, c ≠ '.' := by
  rcases splitextExt_shape url with h | ⟨t, ht, hnd⟩
  · have hfe : fileExtFor url = ".jpg" := by
      simp only [fileExtFor]
      rw [if_pos h]
    rw [hfe]
    exact ⟨['j', 'p', 'g'], rfl, by decide⟩
  · have hne : ¬ splitextExt url = "" := by
      intro h0
      rw [h0] at ht
      simp at ht
    by_cases hc : [".jpg", ".jpeg", ".png", ".webp"].contains (pyLower (splitextExt url)) = true
    · have hfe : fileExtFor url = splitextExt url := by
        simp only [fileExtFor]
        rw [if_neg hne, if_pos hc]
      rw [hfe]
      exact ⟨t, ht, hnd⟩
    · have hfe : fileExtFor url = ".jpg" := by
        simp only [fileExtFor]
        rw [if_neg hne, if_neg hc]
      rw [hfe]
      exact ⟨['j', 'p', 'g'], rfl, by decide⟩

theorem fsExists_write (fs : Fs) (p q : String) (c : List Nat) :
    fsExists (fsWrite fs p c) q = ((p == q) || fsExists fs q) := rfl

/-- Successful download: status 200, image content type, large enough body.
The two writes are the open with mode wb and the payload write. -/
theorem download_image_good (r : HttpResponse) (sp : String) (fs : Fs)
    (h200 : r.status = 200) (himg : pyStartswith r.contentType "image/" = true)
    (hlen : 1000 ≤ r.body.length) :
    download_image (some r) sp fs
      = (true, fsWrite (fsWrite fs (resolvePath sp (extFromContentType r.contentType)) [])
          (resolvePath sp (extFromContentType r.contentType)) r.body) := by
  have hbig : ¬ r.body.length < 1000 := by omega
  simp [download_image, h200, himg, hbig]

/-- Every filesystem effect of download_image is a write at the resolved
destination for the response content type. -/
theorem download_image_writes (resp : Option HttpResponse) (sp : String) (fs : Fs) :
    (download_image resp sp fs).snd = fs ∨
    ∃ r, resp = some r ∧
      ((download_image resp sp fs).snd
          = fsWrite fs (resolvePath sp (extFromContentType r.contentType)) [] ∨
        (download_image resp sp fs).snd
          = fsWrite (fsWrite fs (resolvePath sp (extFromContentType r.contentType)) [])
              (resolvePath sp (extFromContentType r.contentType)) r.body) := by
  match resp with
  | none => exact Or.inl rfl
  | some r =>
    by_cases h200 : r.status = 200
    · by_cases himg : pyStartswith r.contentType "image/" = true
      · by_cases hsize : r.body.length < 1000
        · refine Or.inr ⟨r, rfl, Or.inl ?_⟩
          simp [download_image, h200, himg, hsize]
        · refine Or.inr ⟨r, rfl, Or.inr ?_⟩
          simp [download_image, h200, himg, hsize]
      · left
        rw [Bool.not_eq_true] at himg
        simp [download_image, h200, himg]
    · left
      simp [download_image, h200]

/-- Save paths are the stem, then the two-digit number, then a dot-led
extension; the content-type override preserves that shape and the number. -/
theorem resolvePath_shape (stem : String) (n : Nat) (url ct : String) :
    ∃ t2, (resolvePath (stem ++ pad2 n ++ fileExtFor url) (extFromContentType ct)).data
      = stem.data ++ ((pad2 n).data ++ '.' :: t2) := by
  obtain ⟨t, ht, htnd⟩ := fileExtFor_shape url
  unfold resolvePath
  split_ifs with h
  · refine ⟨t, ?_⟩
    rw [String.data_append, String.data_append, ht, List.append_assoc]
  · refine ⟨(extFromContentType ct).data, ?_⟩
    have hsp : (stem ++ pad2 n ++ fileExtFor url).data
        = (stem.data ++ (pad2 n).data) ++ '.' :: t := by
      rw [String.data_append, String.data_append, ht]
    show (rsplitDot (stem ++ pad2 n ++ fileExtFor url) ++ "." ++ extFromContentType ct).data = _
    rw [String.data_append, String.data_append]
    unfold rsplitDot
    rw [hsp, beforeLastDot_append htnd]
    simp [List.append_assoc]

/-- Freshness from index i: no filesystem entry occupies any save-path-shaped
location whose sequence number comes from a candidate index of at least i. -/
def FreshFrom (stem : String) (existing : Nat) (fs : Fs) (i : Nat) : Prop :=
  ∀ j t, i ≤ j →
    fsExists fs (String.mk (stem.data ++ ((pad2 (j + existing + 1)).data ++ '.' :: t))) = false

theorem FreshFrom.mono {stem : String} {existing : Nat} {fs : Fs} {i : Nat}
    (h : FreshFrom stem existing fs i) {j : Nat} (hij : i ≤ j) : FreshFrom stem existing fs j :=
  fun k t hk => h k t (le_trans hij hk)

/-- Writing a file whose sequence number belongs to an already-processed
candidate index keeps all later-indexed save paths fresh. -/
theorem FreshFrom.write_le {stem : String} {existing : Nat} {fs : Fs} {i : Nat} {p : String}
    {c : List Nat} {k : Nat}
    (hf : FreshFrom stem existing fs i) (hki : k < i)
    (hp : ∃ t1, p.data = stem.data ++ ((pad2 (k + existing + 1)).data ++ '.' :: t1)) :
    FreshFrom stem existing (fsWrite fs p c) i := by
  intro j t hj
  rw [fsExists_write]
  apply Bool.or_eq_false_iff.mpr
  refine ⟨?_, hf j t hj⟩
  apply beq_eq_false_iff_ne.mpr
  intro hpq
  obtain ⟨t1, hp1⟩ := hp
  have hdq : stem.data ++ ((pad2 (k + existing + 1)).data ++ '.' :: t1)
      = stem.data ++ ((pad2 (j + existing + 1)).data ++ '.' :: t) := by
    have h0 := congrArg String.data hpq
    rw [hp1] at h0
    exact h0.trans (string_mk_data _)
  have h2 := List.append_cancel_left hdq
  have hpad := (nodot_dot_append_cancel (pad2_no_dot (k + existing + 1))
    (pad2_no_dot (j + existing + 1)) (x := '.' :: t1) (y := '.' :: t) rfl rfl h2).1
  have := pad2_inj hpad
  omega

theorem FreshFrom.sp_not_exists {stem : String} {existing : Nat} {fs : Fs} {i : Nat}
    (hf : FreshFrom stem existing fs i) (url : String) :
    fsExists fs (stem ++ pad2 (i + existing + 1) ++ fileExtFor url) = false := by
  obtain ⟨t, ht, _⟩ := fileExtFor_shape url
  have hdata : (stem ++ pad2 (i + existing + 1) ++ fileExtFor url)
      = String.mk (stem.data ++ ((pad2 (i + existing + 1)).data ++ '.' :: t)) := by
    apply String.ext
    rw [String.data_append, String.data_append, ht, string_mk_data, List.append_assoc]
  rw [hdata]
  exact hf i t le_rfl

/-! ## Step equations and counting facts for the download loop -/

theorem download_loop_break (stem : String) (existing maxI : Nat)
    (net : Nat → Option HttpResponse) (urls : List String) (i count : Nat) (fs : Fs)
    (h : maxI ≤ existing + count) :
    download_loop stem existing maxI net urls i count fs = ⟨count, fs, []⟩ := by
  cases urls with
  | nil => rfl
  | cons u rest => simp [download_loop, h]

theorem download_loop_skip (stem : String) (existing maxI : Nat)
    (net : Nat → Option HttpResponse) (url : String) (rest : List String) (i count : Nat)
    (fs : Fs) (hbr : ¬ maxI ≤ existing + count)
    (hex : fsExists fs (stem ++ pad2 (i + existing + 1) ++ fileExtFor url) = true) :
    download_loop stem existing maxI net (url :: rest) i count fs
      = download_loop stem existing maxI net rest (i + 1) count fs := by
  simp [download_loop, hbr, hex]

theorem download_loop_fetch (stem : String) (existing maxI : Nat)
    (net : Nat → Option HttpResponse) (url : String) (rest : List String) (i count : Nat)
    (fs : Fs) (hbr : ¬ maxI ≤ existing + count)
    (hex : fsExists fs (stem ++ pad2 (i + existing + 1) ++ fileExtFor url) = false) :
    download_loop stem existing maxI net (url :: rest) i count fs
      = ⟨(download_loop stem existing maxI net rest (i + 1)
            (if (download_image (net i) (stem ++ pad2 (i + existing + 1) ++ fileExtFor url) fs).fst
              then count + 1 else count)
            (download_image (net i) (stem ++ pad2 (i + existing + 1) ++ fileExtFor url) fs).snd).count,
          (download_loop stem existing maxI net rest (i + 1)
            (if (download_image (net i) (stem ++ pad2 (i + existing + 1) ++ fileExtFor url) fs).fst
              then count + 1 else count)
            (download_image (net i) (stem ++ pad2 (i + existing + 1) ++ fileExtFor url) fs).snd).fs,
          NetCall.fetch i ::
            (download_loop stem existing maxI net rest (i + 1)
              (if (download_image (net i) (stem ++ pad2 (i + existing + 1) ++ fileExtFor url) fs).fst
                then count + 1 else count)
              (download_image (net i) (stem ++ pad2 (i + existing + 1) ++ fileExtFor url) fs).snd).calls⟩ := by
  simp [download_loop, hbr, hex]

/-- Safety half of the cap property: the loop never pushes existing plus
downloaded beyond the cap. -/
theorem download_loop_le (stem : String) (existing maxI : Nat)
    (net : Nat → Option HttpResponse) :
    ∀ (urls : List String) (i count : Nat) (fs : Fs), existing + count ≤ maxI →
      existing + (download_loop stem existing maxI net urls i count fs).count ≤ maxI := by
  intro urls
  induction urls with
  | nil => intro i count fs h; exact h
  | cons url rest ih =>
    intro i count fs h
    by_cases hbr : maxI ≤ existing + count
    · rw [download_loop_break stem existing maxI net (url :: rest) i count fs hbr]
      exact h
    · by_cases hex : fsExists fs (stem ++ pad2 (i + existing + 1) ++ fileExtFor url) = true
      · rw [download_loop_skip stem existing maxI net url rest i count fs hbr hex]
        exact ih (i + 1) count fs h
      · rw [Bool.not_eq_true] at hex
        rw [download_loop_fetch stem existing maxI net url rest i count fs hbr hex]
        by_cases hok :
            (download_image (net i) (stem ++ pad2 (i + existing + 1) ++ fileExtFor url) fs).fst
              = true
        · simp only [hok, if_true]
          exact ih (i + 1) (count + 1) _ (by omega)
        · rw [Bool.not_eq_true] at hok
          simp only [hok, Bool.false_eq_true, if_false]
          exact ih (i + 1) count _ h

/-- Exactness half of the cap property: with every candidate fetch
succeeding and all save paths fresh, the loop downloads until the cap is
reached exactly. -/
theorem download_loop_exact (stem : String) (existing maxI : Nat)
    (net : Nat → Option HttpResponse)
    (hnet : ∀ j, ∃ r, net j = some r ∧ r.status = 200 ∧
      pyStartswith r.contentType "image/" = true ∧ 1000 ≤ r.body.length) :
    ∀ (urls : List String) (i count : Nat) (fs : Fs),
      existing + count ≤ maxI → maxI ≤ existing + count + urls.length →
      FreshFrom stem existing fs i →
      (download_loop stem existing maxI net urls i count fs).count = maxI - existing := by
  intro urls
  induction urls with
  | nil =>
    intro i count fs h1 h2 _
    show count = maxI - existing
    simp only [List.length_nil, Nat.add_zero] at h2
    omega
  | cons url rest ih =>
    intro i count fs h1 h2 hfresh
    by_cases hbr : maxI ≤ existing + count
    · rw [download_loop_break stem existing maxI net (url :: rest) i count fs hbr]
      show count = maxI - existing
      omega
    · have hex := hfresh.sp_not_exists url
      rw [download_loop_fetch stem existing maxI net url rest i count fs hbr hex]
      obtain ⟨r, hr, h200, himg, hlen⟩ := hnet i
      rw [hr, download_image_good r _ fs h200 himg hlen]
      obtain ⟨t2, ht2⟩ := resolvePath_shape stem (i + existing + 1) url r.contentType
      have hfresh2 : FreshFrom stem existing
          (fsWrite (fsWrite fs
              (resolvePath (stem ++ pad2 (i + existing + 1) ++ fileExtFor url)
                (extFromContentType r.contentType)) [])
            (resolvePath (stem ++ pad2 (i + existing + 1) ++ fileExtFor url)
              (extFromContentType r.contentType)) r.body) (i + 1) :=
        ((hfresh.mono (Nat.le_succ i)).write_le (Nat.lt_succ_self i)
            ⟨t2, ht2⟩).write_le (Nat.lt_succ_self i) ⟨t2, ht2⟩
      simp only [if_true]
      exact ih (i + 1) (count + 1) _ (by omega)
        (by simp only [List.length_cons] at h2; omega) hfresh2

/-! ## Claim C3: cap respected -/

/-- Claim C3. In every run the loop downloads at most cap minus existing new
images, and with an adequate supply of candidate URLs whose downloads all
succeed it downloads exactly cap minus existing (ImageCrawler.py
lines 657-699). -/
theorem cap_respected (stem : String) (existing maxI : Nat)
    (net : Nat → Option HttpResponse) (urls : List String) (fs : Fs)
    (hnet : ∀ j, ∃ r, net j = some r ∧ r.status = 200 ∧
      pyStartswith r.contentType "image/" = true ∧ 1000 ≤ r.body.length)
    (hfresh : FreshFrom stem existing fs 0)
    (hsupply : maxI ≤ existing + urls.length)
    (hroom : existing ≤ maxI) :
    (download_loop stem existing maxI net urls 0 0 fs).count = maxI - existing ∧
    ∀ (urls2 : List String) (net2 : Nat → Option HttpResponse) (fs2 : Fs),
      (download_loop stem existing maxI net2 urls2 0 0 fs2).count ≤ maxI - existing := by
  constructor
  · exact download_loop_exact stem existing maxI net hnet urls 0 0 fs (by omega)
      (by omega) hfresh
  · intro urls2 net2 fs2
    have := download_loop_le stem existing maxI net2 urls2 0 0 fs2 (by omega)
    omega

/-- Witness for claim C3: one pre-existing image, a cap of three, three
always-succeeding candidates; exactly two new downloads happen. -/
theorem cap_respected_witness :
    (download_loop "d/r_" 1 3 (fun _ => some ⟨200, "image/jpeg", List.replicate 1000 9⟩)
        ["https://a/1.jpg", "https://a/2.jpg", "https://a/3.jpg"] 0 0 []).count = 3 - 1 :=
  (cap_respected "d/r_" 1 3 (fun _ => some ⟨200, "image/jpeg", List.replicate 1000 9⟩)
      ["https://a/1.jpg", "https://a/2.jpg", "https://a/3.jpg"] []
      (fun _ => ⟨⟨200, "image/jpeg", List.replicate 1000 9⟩, rfl, rfl, by decide, by decide⟩)
      (fun _ _ _ => rfl) (by decide) (by decide)).1

theorem fsExists_write_cases {fs : Fs} {p q : String} {c : List Nat}
    (h : fsExists (fsWrite fs p c) q = true) : q = p ∨ fsExists fs q = true := by
  rw [fsExists_write] at h
  rcases Bool.or_eq_true_iff.mp h with h | h
  · exact Or.inl (beq_iff_eq.mp h).symm
  · exact Or.inr h

/-- Every file the loop adds sits at a save path whose two-digit sequence
number is its candidate index plus existing plus one. -/
theorem download_loop_new_paths (stem : String) (existing maxI : Nat)
    (net : Nat → Option HttpResponse) :
    ∀ (urls : List String) (i count : Nat) (fs : Fs) (p : String),
      fsExists (download_loop stem existing maxI net urls i count fs).fs p = true →
      fsExists fs p = true ∨
        ∃ j t, i ≤ j ∧ j < i + urls.length ∧
          p.data = stem.data ++ ((pad2 (j + existing + 1)).data ++ '.' :: t) := by
  intro urls
  induction urls with
  | nil => intro i count fs p h; exact Or.inl h
  | cons url rest ih =>
    intro i count fs p h
    by_cases hbr : maxI ≤ existing + count
    · rw [download_loop_break stem existing maxI net (url :: rest) i count fs hbr] at h
      exact Or.inl h
    · by_cases hex : fsExists fs (stem ++ pad2 (i + existing + 1) ++ fileExtFor url) = true
      · rw [download_loop_skip stem existing maxI net url rest i count fs hbr hex] at h
        rcases ih (i + 1) count fs p h with h0 | ⟨j, t, hj1, hj2, hp⟩
        · exact Or.inl h0
        · refine Or.inr ⟨j, t, by omega, ?_, hp⟩
          simp only [List.length_cons]
          omega
      · rw [Bool.not_eq_true] at hex
        rw [download_loop_fetch stem existing maxI net url rest i count fs hbr hex] at h
        rcases ih (i + 1) _ _ p h with h0 | ⟨j, t, hj1, hj2, hp⟩
        · rcases download_image_writes (net i)
            (stem ++ pad2 (i + existing + 1) ++ fileExtFor url) fs with heq | ⟨r, hr, hw⟩
          · rw [heq] at h0
            exact Or.inl h0
          · rcases hw with hw | hw
            · rw [hw] at h0
              rcases fsExists_write_cases h0 with rfl | h1
              · obtain ⟨t2, ht2⟩ := resolvePath_shape stem (i + existing + 1) url r.contentType
                refine Or.inr ⟨i, t2, le_rfl, ?_, ht2⟩
                simp only [List.length_cons]
                omega
              · exact Or.inl h1
            · rw [hw] at h0
              rcases fsExists_write_cases h0 with rfl | h1
              · obtain ⟨t2, ht2⟩ := resolvePath_shape stem (i + existing + 1) url r.contentType
                refine Or.inr ⟨i, t2, le_rfl, ?_, ht2⟩
                simp only [List.length_cons]
                omega
              · rcases fsExists_write_cases h1 with rfl | h2
                · obtain ⟨t2, ht2⟩ := resolvePath_shape stem (i + existing + 1) url r.contentType
                  refine Or.inr ⟨i, t2, le_rfl, ?_, ht2⟩
                  simp only [List.length_cons]
                  omega
                · exact Or.inl h2
        · refine Or.inr ⟨j, t, by omega, ?_, hp⟩
          simp only [List.length_cons]
          omega

/-! ## Claim C10: sequence numbers from candidate position -/

/-- Stem of the gap scenario: the rust-on-cereals risk of the end-to-end
example, with its derived GUID. -/
def gapStem : String :=
  save_stem (risk_dir "cereals" "diseases" "rust") "diseases" "cereals"
    (guid_for "diseases" "cereals" "rust")

/-- Network oracle of the gap scenario: the first candidate fails with a
network error, every later one succeeds. -/
def gapNet : Nat → Option HttpResponse :=
  fun j => if j = 0 then none else some ⟨200, "image/jpeg", List.replicate 1000 4⟩

/-- The gap scenario run: two candidates, an empty directory, cap five. -/
def gapRun : LoopOut :=
  download_loop gapStem 0 5 gapNet ["https://a/i.jpg", "https://a/j.jpg"] 0 0 []

/-- Claim C10. Every file the download loop writes carries the two-digit
number candidate index plus existing plus one, regardless of how many
earlier candidates succeeded; hence when an earlier candidate fails, the
written numbers have gaps: in the concrete run gapRun, candidate zero fails,
candidate one succeeds, number 01 is absent and number 02 is present. -/
theorem sequence_numbers_positional :
    (∀ (stem : String) (existing maxI : Nat) (net : Nat → Option HttpResponse)
        (urls : List String) (i count : Nat) (fs : Fs) (p : String),
      fsExists (download_loop stem existing maxI net urls i count fs).fs p = true →
      fsExists fs p = true ∨
        ∃ j t, i ≤ j ∧ j < i + urls.length ∧
          p.data = stem.data ++ ((pad2 (j + existing + 1)).data ++ '.' :: t)) ∧
    gapRun.count = 1 ∧
    gapRun.fs = [(gapStem ++ "02.jpg", List.replicate 1000 4), (gapStem ++ "02.jpg", [])] ∧
    fsExists gapRun.fs (gapStem ++ "01.jpg") = false := by
  refine ⟨download_loop_new_paths, ?_, ?_, ?_⟩ <;> decide

/-- Witness for claim C10: the positional part applied to a concrete run
over an empty candidate list, where the only file present was there before. -/
theorem sequence_numbers_positional_witness :
    fsExists (([("z.jpg", [1])] : Fs)) "z.jpg" = true ∨
      ∃ j t, 0 ≤ j ∧ j < 0 + ([] : List String).length ∧
        ("z.jpg" : String).data = ("s_" : String).data ++ ((pad2 (j + 0 + 1)).data ++ '.' :: t) :=
  sequence_numbers_positional.1 "s_" 0 5 (fun _ => none) [] 0 0 [("z.jpg", [1])] "z.jpg"
    (by decide)

/-- Claim C5, amended. The already-downloaded skip is the orchestrator
loop: a candidate whose save path, computed before any content-type
override, already exists is skipped with no fetch and no filesystem change
(ImageCrawler.py lines 684-687); the Fetcher itself never checks existence
and writes the payload at the resolved path over whatever was there. -/
theorem no_overwrite_amended (stem : String) (existing maxI : Nat)
    (net : Nat → Option HttpResponse) (url : String) (rest : List String)
    (i count : Nat) (fs : Fs)
    (hcap : ¬ maxI ≤ existing + count)
    (hex : fsExists fs (stem ++ pad2 (i + existing + 1) ++ fileExtFor url) = true) :
    download_loop stem existing maxI net (url :: rest) i count fs
      = download_loop stem existing maxI net rest (i + 1) count fs ∧
    ∀ (r : HttpResponse) (sp : String) (fs2 : Fs), r.status = 200 →
      pyStartswith r.contentType "image/" = true → 1000 ≤ r.body.length →
      fsRead (download_image (some r) sp fs2).snd
          (resolvePath sp (extFromContentType r.contentType)) = some r.body := by
  refine ⟨download_loop_skip stem existing maxI net url rest i count fs hcap hex, ?_⟩
  intro r sp fs2 h200 himg hlen
  rw [download_image_good r sp fs2 h200 himg hlen]
  simp [fsRead, fsWrite, List.find?]

/-- Witness for the amended claim C5: a candidate whose save path exists is
skipped, and a concrete fetch overwrites the resolved path. -/
theorem no_overwrite_amended_witness :
    download_loop "s_" 0 5 (fun _ => none) ["u.jpg"] 0 0 [("s_01.jpg", [9])]
      = download_loop "s_" 0 5 (fun _ => none) [] 1 0 [("s_01.jpg", [9])] ∧
    fsRead (download_image (some ⟨200, "image/jpeg", List.replicate 1000 2⟩) "q/x.jpg"
        [("q/x.jpg", [7])]).snd "q/x.jpg" = some (List.replicate 1000 2) := by
  have h := no_overwrite_amended "s_" 0 5 (fun _ => none) "u.jpg" [] 0 0 [("s_01.jpg", [9])]
    (by decide) (by decide)
  refine ⟨h.1, ?_⟩
  have h2 := h.2 ⟨200, "image/jpeg", List.replicate 1000 2⟩ "q/x.jpg" [("q/x.jpg", [7])] rfl
    (by decide) (by decide)
  rw [(by decide : resolvePath "q/x.jpg" (extFromContentType "image/jpeg") = "q/x.jpg")] at h2
  exact h2


/-! ## Claim C2: idempotent re-run -/

/-- Claim C2. With at least the cap of entries already in the target
directory, process_risk_item performs zero network calls and returns the
filesystem unchanged (inventory check at ImageCrawler.py lines 592-597). -/
theorem idempotent_rerun (item : RiskItem) (culture_ru culture_en risk_type engine : String)
    (maxImages : Nat) (urlsFor : String → List String) (net : Nat → Option HttpResponse)
    (fs : Fs)
    (hfull : maxImages ≤ countInDir fs (risk_dir culture_en risk_type (risk_name_en_of item))) :
    process_risk_item item culture_ru culture_en risk_type engine maxImages urlsFor net fs
      = (fs, []) := by
  by_cases h1 : pyStrip (item.name.getD "") = ""
  · simp [process_risk_item, h1]
  · simp [process_risk_item, h1, hfull]

/-- Witness for claim C2: a directory holding one file, a cap of one, and a
run that touches nothing. -/
theorem idempotent_rerun_witness :
    process_risk_item ⟨some "Ржавчина", some "rust", none⟩ "пшеница" "cereals" "diseases"
        "google" 1 (fun _ => ["https://a.com/x.jpg"]) (fun _ => none)
        [("crawler/download/images/diseases/cereals/rust/x.jpg", [1, 2, 3])]
      = ([("crawler/download/images/diseases/cereals/rust/x.jpg", [1, 2, 3])], []) :=
  idempotent_rerun ⟨some "Ржавчина", some "rust", none⟩ "пшеница" "cereals" "diseases"
    "google" 1 (fun _ => ["https://a.com/x.jpg"]) (fun _ => none)
    [("crawler/download/images/diseases/cereals/rust/x.jpg", [1, 2, 3])] (by decide)

/-! ## Claim C7: source adapter contract -/

theorem urlFilterLoop_length (maxImages : Nat) :
    ∀ (found acc : List String), acc.length < maxImages →
      (urlFilterLoop maxImages found acc).length ≤ maxImages := by
  intro found
  induction found with
  | nil =>
    intro acc h
    exact Nat.le_of_lt h
  | cons url rest ih =>
    intro acc h
    unfold urlFilterLoop
    split_ifs with h1 h2
    · simp only [List.length_append, List.length_singleton]
      omega
    · apply ih
      simp only [List.length_append, List.length_singleton]
      omega
    · exact ih acc h

theorem urlFilterLoop_mem (maxImages : Nat) :
    ∀ (found acc : List String) (url : String),
      url ∈ urlFilterLoop maxImages found acc →
      url ∈ acc ∨ [".jpg", ".jpeg", ".png", ".webp"].any
        (fun e => pyContains (pyLower url) e) = true := by
  intro found
  induction found with
  | nil => intro acc url h; exact Or.inl h
  | cons u rest ih =>
    intro acc url h
    unfold urlFilterLoop at h
    split_ifs at h with h1 h2
    · rcases List.mem_append.mp h with h | h
      · exact Or.inl h
      · rw [List.mem_singleton] at h
        subst h
        exact Or.inr h1
    · rcases ih _ _ h with h0 | h0
      · rcases List.mem_append.mp h0 with h0 | h0
        · exact Or.inl h0
        · rw [List.mem_singleton] at h0
          subst h0
          exact Or.inr h1
      · exact Or.inr h0
    · exact ih _ _ h

/-- Claim C7, counterexample. The claim requires the returned sequence to be
deduplicated; the Google adapter appends every regex match, so a page text
holding the same URL twice yields it twice. -/
theorem source_adapter_dedup_counterexample :
    ¬ (get_google_image_urls
        (some "\"https://a.com/x.jpg\" \"https://a.com/x.jpg\"") 10).Nodup := by
  decide

/-- Claim C7, amended. Both adapter variants return the empty sequence when
the request fails or the status is not a success; for a positive cap the
result length never exceeds the cap; and every returned URL contains one of
the image extensions, case-insensitively. The sequences are not
deduplicated. -/
theorem source_adapter_amended :
    (∀ m, get_google_image_urls none m = [] ∧ get_yandex_image_urls none m = []) ∧
    (∀ text m, 1 ≤ m →
      (get_google_image_urls (some text) m).length ≤ m ∧
      (get_yandex_image_urls (some text) m).length ≤ m) ∧
    (∀ text m url, (url ∈ get_google_image_urls (some text) m ∨
        url ∈ get_yandex_image_urls (some text) m) →
      ∃ e ∈ [".jpg", ".jpeg", ".png", ".webp"], pyContains (pyLower url) e = true) := by
  refine ⟨fun m => ⟨rfl, rfl⟩, ?_, ?_⟩
  · intro text m hm
    constructor
    · exact urlFilterLoop_length m _ [] (by simpa using hm)
    · exact urlFilterLoop_length m _ [] (by simpa using hm)
  · intro text m url h
    have hany : [".jpg", ".jpeg", ".png", ".webp"].any
        (fun e => pyContains (pyLower url) e) = true := by
      rcases h with h | h
      · rcases urlFilterLoop_mem m _ [] url h with h0 | h0
        · simp at h0
        · exact h0
      · rcases urlFilterLoop_mem m _ [] url h with h0 | h0
        · simp at h0
        · exact h0
    simpa [List.any_eq_true] using hany

/-- Witness for the amended claim C7: the cap bound applied at a concrete
page text and cap. -/
theorem source_adapter_amended_witness :
    (get_google_image_urls (some "\"https://a.com/x.jpg\" \"https://a.com/x.jpg\"") 5).length
      ≤ 5 :=
  (source_adapter_amended.2.1 "\"https://a.com/x.jpg\" \"https://a.com/x.jpg\"" 5
    (by decide)).1

/-! ## Claim C8: filename round-trip via the converter re-derivation -/

/-- The recognized risk-type directory names
(convert_webp_to_jpg.py line 67). -/
def risk_types : List String := ["diseases", "pests", "weeds"]

/-- First path component whose lowercase form is a recognized risk type
(convert_webp_to_jpg.py line 68), with unknown as the default. -/
def riskTypeFound : List String → String
  | [] => "unknown"
  | p :: rest => if risk_types.contains (pyLower p) then p else riskTypeFound rest

/-- Culture and disease name extracted from the components after the first
recognized risk type that is followed by at least one component
(convert_webp_to_jpg.py lines 71-79). -/
def cultureDisease : List String → String × String
  | [] => ("unknown", "unknown")
  | p :: rest =>
    if risk_types.contains (pyLower p) = true ∧ rest ≠ [] then
      (pyLower (rest.headD "unknown"),
        match rest with
        | _ :: d :: _ => pyLower d
        | _ => "unknown")
    else cultureDisease rest

/-- GUID regenerated from the directory context when no GUID appears in the
path (convert_webp_to_jpg.py lines 93-96). -/
def rederived_guid (parts : List String) : String :=
  uuid5dns (pyLower (riskTypeFound parts ++ "_" ++ (cultureDisease parts).fst ++ "_"
    ++ (cultureDisease parts).snd))

/-- Components of the crawler risk directory, as os.path.normpath followed
by splitting on the separator yields them when the three context values are
slash-free. -/
def crawler_dir_parts (culture_en risk_type risk_name_en : String) : List String :=
  ["crawler", "download", "images", risk_type, culture_en,
    pyLower (pyReplaceSpace risk_name_en)]

theorem pyReplaceSpace_id {s : String} (h : ' ' ∉ s.data) : pyReplaceSpace s = s := by
  apply String.ext
  show s.data.map (fun c => if c = ' ' then '_' else c) = s.data
  have hmap : s.data.map (fun c => if c = ' ' then '_' else c) = s.data.map id :=
    List.map_congr_left (fun c hc => by
      have hne : ¬ c = ' ' := fun hq => h (hq ▸ hc)
      simp [hne])
  rw [hmap, List.map_id]

/-- Claim C8, counterexample. A risk name with a space breaks the
round-trip: the directory stores the name with underscores, the GUID seed
uses the raw name with the space, so the converter regenerates a different
GUID than the one embedded in the filename. -/
theorem filename_roundtrip_counterexample :
    rederived_guid (crawler_dir_parts "cereals" "diseases" "brown rot")
      ≠ guid_for "diseases" "cereals" "brown rot" := by
  decide

/-- Claim C8, amended. For a conforming path whose risk type is one of the
recognized types and whose English risk name has no spaces, re-deriving the
GUID from the path components reproduces the GUID the crawler embeds in the
filename; a space in the risk name breaks the agreement because the
directory name replaces it with an underscore before the seed is formed. -/
theorem filename_roundtrip_amended (culture_en risk_type risk_name_en : String)
    (h1 : risk_types.contains (pyLower risk_type) = true)
    (h2 : ' ' ∉ risk_name_en.data) :
    rederived_guid (crawler_dir_parts culture_en risk_type risk_name_en)
      = guid_for risk_type culture_en risk_name_en := by
  have hrt : riskTypeFound (crawler_dir_parts culture_en risk_type risk_name_en)
      = risk_type := by
    simp only [crawler_dir_parts, riskTypeFound]
    rw [if_neg (by decide), if_neg (by decide), if_neg (by decide), if_pos h1]
  have hcd : cultureDisease (crawler_dir_parts culture_en risk_type risk_name_en)
      = (pyLower culture_en, pyLower (pyLower (pyReplaceSpace risk_name_en))) := by
    simp only [crawler_dir_parts, cultureDisease]
    rw [if_neg (fun hc => absurd hc.1 (by decide)),
      if_neg (fun hc => absurd hc.1 (by decide)),
      if_neg (fun hc => absurd hc.1 (by decide)),
      if_pos ⟨h1, by simp⟩]
    rfl
  unfold rederived_guid
  rw [hrt, hcd]
  unfold guid_for
  congr 1
  rw [pyReplaceSpace_id h2]
  simp [pyLower_append, pyLower_idem]

/-- Witness for the amended claim C8 at the rust-on-cereals example. -/
theorem filename_roundtrip_amended_witness :
    rederived_guid (crawler_dir_parts "cereals" "diseases" "rust")
      = guid_for "diseases" "cereals" "rust" :=
  filename_roundtrip_amended "cereals" "diseases" "rust" (by decide) (by decide)

/-! ## Claim C1: identity derivation -/

/-- Claim C1, counterexample. The claim states that changing any one of the
three inputs changes the resulting GUID. The derivation lowercases the joined
seed string (ImageCrawler.py line 673), so changing the culture name from
Cereals to cereals changes an input but yields the very same GUID. -/
theorem identity_input_change_counterexample :
    guid_for "diseases" "Cereals" "rust" = guid_for "diseases" "cereals" "rust" ∧
      ("Cereals" : String) ≠ "cereals" := by
  constructor
  · unfold guid_for
    exact congrArg uuid5dns (by decide)
  · decide

/-- Claim C1, amended. Identity derivation is a pure deterministic function of
the triple: deriving twice yields the same GUID, and any two triples whose
lowercased underscore-joined seed strings agree yield the same GUID; inputs
that do change the lowercased seed do change the GUID on the tested corpus,
witnessed here by varying each of the three components in turn. -/
theorem identity_derivation_amended :
    (∀ rt cen rne : String, guid_for rt cen rne = guid_for rt cen rne) ∧
    (∀ rt cen rne rt2 cen2 rne2 : String,
        pyLower (rt ++ "_" ++ cen ++ "_" ++ rne) = pyLower (rt2 ++ "_" ++ cen2 ++ "_" ++ rne2) →
        guid_for rt cen rne = guid_for rt2 cen2 rne2) ∧
    guid_for "diseases" "cereals" "rust" ≠ guid_for "pests" "cereals" "rust" ∧
    guid_for "diseases" "cereals" "rust" ≠ guid_for "diseases" "corn" "rust" ∧
    guid_for "diseases" "cereals" "rust" ≠ guid_for "diseases" "cereals" "smut" := by
  refine ⟨fun _ _ _ => rfl, fun rt cen rne rt2 cen2 rne2 h => congrArg uuid5dns h, ?_, ?_, ?_⟩
  all_goals decide

/-- Witness for the amended claim C1: the seed-congruence part applied at a
concrete pair of triples that differ only in letter case. -/
theorem identity_derivation_amended_witness :
    guid_for "diseases" "WHEAT" "rust" = guid_for "Diseases" "wheat" "Rust" :=
  identity_derivation_amended.2.1 "diseases" "WHEAT" "rust" "Diseases" "wheat" "Rust" (by decide)

/-! ## Claim C9: query builder -/

/-- Claim C9, counterexample. The claim states that the query builder returns
at least two query strings covering a local language and English; the
orchestrator builds exactly one query per record (ImageCrawler.py line 603),
and create_search_query returns one Russian string. -/
theorem query_builder_multiplicity_counterexample :
    ¬ 2 ≤ (queries_built "Ржавчина" "пшеница" "diseases" "google").length := by
  decide

/-- Claim C9, amended. The query builder produces exactly one query string per
risk record, combining the risk-type-specific Russian template with the risk
name and the culture name; the engine hint only selects the phrasing. The
concrete values match the expectations of ImageCrawlerTests.py lines 68-76. -/
theorem query_builder_amended :
    (∀ rn cu rt en : String, (queries_built rn cu rt en).length = 1 ∧
      queries_built rn cu rt en = [create_search_query rn cu rt en]) ∧
    create_search_query "Ржавчина" "пшеница" "diseases" "google" = "Ржавчина болезнь пшеница фото" ∧
    create_search_query "Тля" "пшеница" "pests" "google" = "Тля вредитель пшеница фото" ∧
    create_search_query "Ржавчина" "пшеница" "diseases" "yandex"
      = "Ржавчина болезнь пшеница фото высокое качество" ∧
    create_search_query "Тля" "пшеница" "pests" "yandex" = "Тля вредитель пшеница фото макро" := by
  exact ⟨fun _ _ _ _ => ⟨rfl, rfl⟩, by decide, by decide, by decide, by decide⟩

end AgriRisks
